import Mathlib

/-!
Verification of the live synchronization engine of the tacos-terminal-lyrics
repository (`visualizer_main.py`, `visualizer_player.py`, `parser.py`).

Shallow embedding conventions:
* Python `float` positions and timestamps are modelled by `ℚ`.
* `Optional[T]` is `Option T`; a Python `None` is `none`.
* One iteration of the `position_monitor` background thread body, and the
  resync-handling prefix of one iteration of the inner `while` of
  `run_visualizer`, are modelled as pure state-transition functions whose
  oracle answers (`get_track`, `get_position`, `get_status`) and the measured
  wall-clock `elapsed` are explicit inputs.
* Python truthiness is modelled explicitly where it matters: an `Optional[str]`
  is truthy iff it is `some s` with `s ≠ ""`; a 2-tuple is always truthy.
-/

namespace TacosLyrics

/-- `SyncData.__init__` (visualizer_main.py lines 14-19): the shared
synchronization state.  Field names follow the source. -/
structure SyncData where
  position : Option ℚ
  should_resync : Bool
  running : Bool
  current_title : Option String
  paused : Bool
deriving DecidableEq, Repr

/-- The state `SyncData()` is constructed in:
`position=None, should_resync=False, running=True, current_title=None,
paused=False`. -/
def SyncData.init : SyncData :=
  { position := none
    should_resync := false
    running := true
    current_title := none
    paused := false }

/-! ### Index selection (visualizer_main.py)

Initial entry to Synced, lines 142-146:
```
idx = 0
for i, (start, _) in enumerate(lines):
    if pos < start:
        break
    idx = i
```
Resync, lines 162-167:
```
idx = 0
for i, (start, _) in enumerate(lines):
    if new_pos >= start:
        idx = i
    else:
        break
```
Both walk the list with a running `enumerate` counter `i` and the last
accepted index `idx`; we model them with an accumulator-passing recursion. -/

/-- The entry-scan loop body: `i` is the enumerate counter, `idx` the
accumulator; the loop breaks at the first line with `pos < start`. -/
def selectEntryGo (pos : ℚ) : List (ℚ × String) → Nat → Nat → Nat
  | [], _, idx => idx
  | (start, _) :: rest, i, idx =>
    if pos < start then idx else selectEntryGo pos rest (i + 1) i

/-- Index selection on initial entry to Synced (lines 142-146). -/
def selectIndexEntry (lines : List (ℚ × String)) (pos : ℚ) : Nat :=
  selectEntryGo pos lines 0 0

/-- The resync-scan loop body (lines 162-167): accepts while `new_pos ≥ start`,
breaks otherwise. -/
def selectResyncGo (pos : ℚ) : List (ℚ × String) → Nat → Nat → Nat
  | [], _, idx => idx
  | (start, _) :: rest, i, idx =>
    if pos ≥ start then selectResyncGo pos rest (i + 1) i else idx

/-- Index selection during a resync (lines 162-167). -/
def selectIndexResync (lines : List (ℚ × String)) (pos : ℚ) : Nat :=
  selectResyncGo pos lines 0 0

/-! ### The Observer: one cycle of `position_monitor` (lines 27-64)

Local thread state carried between cycles: `expected_pos : Option ℚ` (the
drift anchor).  `last_check` only ever feeds the computed `elapsed`, which we
take as an input.  The oracle answers of the cycle are inputs `track`,
`posResp`, `status`. -/

/-- Lines 36-64 of `position_monitor`: the part of one cycle after the
track-mismatch check. -/
def monitorCycleRest (s : SyncData) (expected : Option ℚ)
    (posResp : Option ℚ) (status : Option String) (elapsed : ℚ) :
    SyncData × Option ℚ :=
  -- line 36-37: `if sync_data.position is None: continue`
  match s.position with
  | none => (s, expected)
  | some _ =>
    -- lines 39-41: `actual_pos = get_position(); if actual_pos is None: continue`
    match posResp with
    | none => (s, expected)
    | some actual =>
      -- lines 43-49: the Paused branch
      if status = some "Paused" then
        ({ s with position := some actual, should_resync := true,
                  paused := true }, none)
      else
        -- line 51
        let s1 := { s with paused := false }
        -- lines 53-57
        let expAdv : ℚ :=
          match expected with
          | none => actual
          | some e => e + elapsed
        -- lines 59-61
        let s2 :=
          if |actual - expAdv| > 1 then
            { s1 with position := some actual, should_resync := true }
          else s1
        -- line 63: `expected_pos = actual_pos`
        (s2, some actual)

/-- Result of one monitor cycle: the new shared state and the new anchor. -/
def monitorCycle (s : SyncData) (expected : Option ℚ)
    (track : Option (String × String)) (posResp : Option ℚ)
    (status : Option String) (elapsed : ℚ) : SyncData × Option ℚ :=
  -- lines 30-34: `if track_info and sync_data.current_title:` (truthiness:
  -- current_title must be a non-None, non-empty string) and then
  -- `if track_info[1] != sync_data.current_title: should_resync = True; continue`
  match track, s.current_title with
  | some ti, some ct =>
    if ct ≠ "" ∧ ti.2 ≠ ct then ({ s with should_resync := true }, expected)
    else monitorCycleRest s expected posResp status elapsed
  | _, _ => monitorCycleRest s expected posResp status elapsed

/-! ### Loop-side pieces of `run_visualizer` -/

/-- Line 103: `song_changed = last_title and title != last_title`, used as a
boolean.  Python truthiness of `last_title` (an `Optional[str]`): truthy iff
non-None and non-empty. -/
def songChanged (lastTitle : Option String) (title : String) : Bool :=
  match lastTitle with
  | none => false
  | some lt => lt ≠ "" && title ≠ lt

/-- Line 130: the guard `if song_changed and pos > 5.0:` that enters the
Seeking wait. -/
def seekEntered (lastTitle : Option String) (title : String) (pos : ℚ) : Bool :=
  songChanged lastTitle title && pos > 5

/-- Lines 131-135: the bounded Seeking wait
```
for _ in range(20):
    pos = get_position()
    if pos is not None and pos < 5.0:
        break
    time.sleep(0.1)
```
`oracle k` is `get_position()`'s answer at iteration `k`; `fuel` counts the
remaining `range` iterations and `k` the current iteration.  The result is the
number of `time.sleep(0.1)` calls performed (the loop breaks *before*
sleeping, so an early break at iteration `k` performs exactly `k` sleeps). -/
def seekWaitGo (oracle : Nat → Option ℚ) : Nat → Nat → Nat
  | 0, _ => 0
  | fuel + 1, k =>
    match oracle k with
    | some p => if p < 5 then 0 else seekWaitGo oracle fuel (k + 1) + 1
    | none => seekWaitGo oracle fuel (k + 1) + 1

/-- The number of 0.1s sleeps the Seeking wait performs against `oracle`. -/
def seekWaitSleeps (oracle : Nat → Option ℚ) : Nat :=
  seekWaitGo oracle 20 0

/-- Outcome of the resync-handling prefix (lines 152-169) of one inner-loop
iteration. -/
inductive ResyncResult where
  /-- `should_resync` was false: no resync handling this iteration. -/
  | noResync
  /-- Line 156: `break` out of the inner loop, abandoning the lyric set and
  returning to the outer (AwaitingTrack) loop. -/
  | exitLoop
  /-- Lines 158-169: stay in Synced with the recomputed index, the new anchor
  position, and the updated shared state. -/
  | reanchor (idx : Nat) (startPos : ℚ) (s : SyncData)
  /-- `sync_data.position` was `None` when line 164 compared it with a float:
  a `TypeError` would be raised (unreachable in practice: line 150 always
  stores a float before the inner loop starts). -/
  | typeError
deriving DecidableEq, Repr

/-- Lines 152-169: the resync handling at the top of one inner `while`
iteration.  `title` is the title the loaded lyric set belongs to, `lines` the
loaded set, `newTrack` the answer of the `get_track()` call at line 154. -/
def syncedIterResync (s : SyncData) (title : String)
    (lines : List (ℚ × String)) (newTrack : Option (String × String)) :
    ResyncResult :=
  if s.should_resync then
    -- line 155: `if not new_track or new_track[1] != title: break`
    match newTrack with
    | none => .exitLoop
    | some nt =>
      if nt.2 ≠ title then .exitLoop
      else
        -- lines 158-169: re-anchor and rescan
        match s.position with
        | none => .typeError
        | some newPos =>
          .reanchor (selectIndexResync lines newPos) newPos
            { s with should_resync := false }
  else .noResync

/-! ### The Playback Oracle shims (`visualizer_player.py`)

Each query runs `subprocess.run([...], timeout=0.5)` inside
`try/except Exception`.  We model the subprocess interaction by an abstract
outcome: either an exception was raised (timeout expired, `playerctl`
missing, ...) — all caught by the bare `except Exception` — or the process
completed with a return code and stdout.  Python `float(...)` may raise
`ValueError`, which the same handler catches; we model it as an abstract
total parse function `pyFloat : String → Option ℚ` (`none` = raised). -/

/-- Outcome of one `subprocess.run` call as observed by the caller. -/
inductive SubprocOutcome where
  /-- Any exception (`subprocess.TimeoutExpired`, `FileNotFoundError`, ...);
  caught by `except Exception`. -/
  | raised
  /-- Process completed with this return code and stdout. -/
  | completed (returncode : Int) (stdout : String)
deriving DecidableEq, Repr

/-- The `timeout=0.5` argument passed to every `subprocess.run` call in
`visualizer_player.py` (seconds). -/
def oracleTimeout : ℚ := 1 / 2

/-- `get_position` (visualizer_player.py lines 10-26). -/
def get_position (pyFloat : String → Option ℚ) (o : SubprocOutcome) :
    Option ℚ :=
  match o with
  | .raised => none
  | .completed rc out => if rc = 0 then pyFloat out.trim else none

/-- `get_track` (lines 29-47).  On `returncode == 0` the stripped stdout is
split on `"|||"`; a 2-part split yields `(artist, title)`, anything else
`None`.  On a nonzero return code control falls off the function body:
implicitly `None`. -/
def get_track (o : SubprocOutcome) : Option (String × String) :=
  match o with
  | .raised => none
  | .completed rc out =>
    if rc = 0 then
      match out.trim.splitOn "|||" with
      | [a, t] => some (a, t)
      | _ => none
    else none

/-- `get_status` (lines 50-66). -/
def get_status (o : SubprocOutcome) : Option String :=
  match o with
  | .raised => none
  | .completed rc out => if rc = 0 then some out.trim else none

/-! ### Whole-execution trace model for the shared `running` flag

The two actors interleave arbitrarily; the only writes to `SyncData` in the
source are: the Observer's cycle (`position_monitor`), and the Loop's
assignments `current_title = title` (line 119), `position = pos` (line 150),
the resync handling (lines 152-169) and the shutdown `running = False`
(line 188).  We model a whole execution as a list of such events applied to
the initial state. -/

/-- One atomic state-affecting step of either actor. -/
inductive Event where
  /-- One `position_monitor` cycle with the given oracle answers and measured
  elapsed time (no-op once `running` is false: the thread's `while
  sync_data.running` has exited). -/
  | observerCycle (track : Option (String × String)) (posResp : Option ℚ)
      (status : Option String) (elapsed : ℚ)
  /-- Line 119: `sync_data.current_title = title`. -/
  | loopSetTitle (title : String)
  /-- Line 150: `sync_data.position = pos`. -/
  | loopSetPosition (pos : ℚ)
  /-- Lines 152-169: the Loop's resync handling (its effect on the shared
  state). -/
  | loopResync (title : String) (lines : List (ℚ × String))
      (newTrack : Option (String × String))
  /-- Line 188: `sync_data.running = False` (the `finally` block). -/
  | shutdown
deriving DecidableEq

/-- Whether an event is the shutdown write. -/
def Event.isShutdown : Event → Bool
  | .shutdown => true
  | _ => false

/-- Engine state for the trace model: the shared `SyncData` plus the
Observer's thread-local anchor `expected_pos`. -/
def EngineState : Type := SyncData × Option ℚ

/-- Apply one event to an engine state. -/
def applyEvent (st : EngineState) (ev : Event) : EngineState :=
  match ev with
  | .observerCycle track posResp status elapsed =>
    if st.1.running then monitorCycle st.1 st.2 track posResp status elapsed
    else st
  | .loopSetTitle title => ({ st.1 with current_title := some title }, st.2)
  | .loopSetPosition pos => ({ st.1 with position := some pos }, st.2)
  | .loopResync title lines newTrack =>
    match syncedIterResync st.1 title lines newTrack with
    | .reanchor _ _ s' => (s', st.2)
    | _ => st
  | .shutdown => ({ st.1 with running := false }, st.2)

/-- Run a whole execution: fold the events over a start state. -/
def runEvents (st : EngineState) (es : List Event) : EngineState :=
  es.foldl applyEvent st

/-! ### The parser (`parser.py`, `parse_lrc_simple`, lines 43-70)

The regex is `\[(\d{1,2}):(\d{2}\.\d{1,3})\](.+)`, applied with
`pattern.match` (anchored at the start) to the stripped line.  We translate
the regex into an explicit character-level matcher; for this pattern,
backtracking on the bounded repetitions `\d{1,2}` and `\d{1,3}` is equivalent
to taking the maximal leading digit run and checking its length is in range,
because the character required after each repetition (`:`, `]`) is never a
digit.  Timestamps are modelled exactly in `ℚ` (the decimal values involved,
multiples of 1/1000 below 6100, are mapped injectively and monotonically to
Python floats, so order and ties agree). -/

/-- Split a character list into its maximal leading run of ASCII digits and
the remainder. -/
def takeDigits : List Char → List Char × List Char
  | [] => ([], [])
  | c :: cs =>
    if c.isDigit then
      let p := takeDigits cs
      (c :: p.1, p.2)
    else ([], c :: cs)

/-- Numeric value of a digit run (decimal). -/
def digitsVal (ds : List Char) : Nat :=
  ds.foldl (fun n c => n * 10 + (c.toNat - 48)) 0

/-- Match `\[(\d{1,2}):(\d{2}\.\d{1,3})\](.+)` at the start of `cs`, returning
the timestamp `int(minutes) * 60 + float(seconds)` and the characters matched
by `(.+)`. -/
def matchLrcLine (cs : List Char) : Option (ℚ × List Char) :=
  match cs with
  | '[' :: cs1 =>
    -- `(\d{1,2})` then `:`; the character after the repetition is never a
    -- digit, so backtracking equals bounding the maximal digit run's length
    if 1 ≤ (takeDigits cs1).1.length ∧ (takeDigits cs1).1.length ≤ 2 then
      match (takeDigits cs1).2 with
      | ':' :: cs3 =>
        -- `(\d{2}` — exactly two digits then `.`
        if (takeDigits cs3).1.length = 2 then
          match (takeDigits cs3).2 with
          | '.' :: cs5 =>
            -- `\.\d{1,3})` then `]`
            if 1 ≤ (takeDigits cs5).1.length ∧ (takeDigits cs5).1.length ≤ 3
            then
              match (takeDigits cs5).2 with
              | ']' :: rest =>
                -- `(.+)`: at least one character
                if rest = [] then none
                else
                  some ((digitsVal (takeDigits cs1).1 : ℚ) * 60
                    + ((digitsVal (takeDigits cs3).1 : ℚ)
                      + (digitsVal (takeDigits cs5).1 : ℚ)
                        / ((10 : ℚ) ^ (takeDigits cs5).1.length)), rest)
              | _ => none
            else none
          | _ => none
        else none
      | _ => none
    else none
  | _ => none

/-- Lines 57-68 of `parse_lrc_simple` for one raw input line: strip, skip
blank and `#` lines, match the pattern, strip the captured text, and keep the
line only when the stripped text is non-empty. -/
def parseLine (line : String) : Option (ℚ × String) :=
  if line.trim = "" ∨ line.trim.startsWith "#" then none
  else
    match matchLrcLine line.trim.data with
    | none => none
    | some (ts, rest) =>
      if (String.mk rest).trim = "" then none
      else some (ts, (String.mk rest).trim)

/-- Comparison by timestamp used as the sort key (`key=lambda x: x[0]`). -/
def byTs (a b : ℚ × String) : Prop := a.1 ≤ b.1

instance : DecidableRel byTs := fun a b =>
  inferInstanceAs (Decidable (a.1 ≤ b.1))

instance : IsTotal (ℚ × String) byTs := ⟨fun a b => le_total a.1 b.1⟩

instance : IsTrans (ℚ × String) byTs := ⟨fun _ _ _ => le_trans⟩

/-- `parse_lrc_simple` (lines 43-70): collect the matched lines in file order,
then `sorted(lines, key=lambda x: x[0])`.  Python's `sorted` is the stable
non-decreasing reordering by the key; `List.insertionSort byTs` computes
exactly that reordering (it is a stable sort), so the two agree as
functions. -/
def parse_lrc_simple (fileLines : List String) : List (ℚ × String) :=
  List.insertionSort byTs (fileLines.filterMap parseLine)

/-! ## Theorems -/

/-! ### C1: index selection -/

/-- The number of leading lines whose timestamp is ≤ `pos` (the length of the
prefix both scan loops accept before breaking). -/
def hitCount (pos : ℚ) : List (ℚ × String) → Nat
  | [] => 0
  | (start, _) :: rest => if start ≤ pos then hitCount pos rest + 1 else 0

theorem selectEntryGo_eq_selectResyncGo (pos : ℚ) :
    ∀ (l : List (ℚ × String)) (i idx : Nat),
      selectEntryGo pos l i idx = selectResyncGo pos l i idx := by
  intro l
  induction l with
  | nil => intro i idx; rfl
  | cons hd tl ih =>
    intro i idx
    obtain ⟨start, t⟩ := hd
    rcases le_or_lt start pos with h | h
    · simp [selectEntryGo, selectResyncGo, not_lt.mpr h, h, ih]
    · simp [selectEntryGo, selectResyncGo, h, not_le.mpr h]

theorem selectEntryGo_eq_hitCount (pos : ℚ) :
    ∀ (l : List (ℚ × String)) (i idx : Nat),
      selectEntryGo pos l i idx =
        if hitCount pos l = 0 then idx else i + (hitCount pos l - 1) := by
  intro l
  induction l with
  | nil => intro i idx; rfl
  | cons hd tl ih =>
    intro i idx
    obtain ⟨start, t⟩ := hd
    rcases le_or_lt start pos with h | h
    · rw [selectEntryGo, if_neg (not_lt.mpr h), ih (i + 1) i]
      simp only [hitCount, if_pos h]
      by_cases hz : hitCount pos tl = 0
      · simp [hz]
      · simp [hz]
        omega
    · rw [selectEntryGo, if_pos h]
      simp [hitCount, not_le.mpr h]

theorem hitCount_le_length (pos : ℚ) :
    ∀ l : List (ℚ × String), hitCount pos l ≤ l.length := by
  intro l
  induction l with
  | nil => exact Nat.le_refl 0
  | cons hd tl ih =>
    obtain ⟨start, t⟩ := hd
    by_cases h : start ≤ pos
    · simpa [hitCount, h] using ih
    · simp [hitCount, h]

theorem lt_hitCount_iff (pos : ℚ) :
    ∀ (l : List (ℚ × String)), l.Pairwise byTs →
      ∀ (j : Nat) (hj : j < l.length),
        j < hitCount pos l ↔ (l.get ⟨j, hj⟩).1 ≤ pos := by
  intro l
  induction l with
  | nil => intro _ j hj; exact absurd hj (Nat.not_lt_zero j)
  | cons hd tl ih =>
    intro hsort j hj
    obtain ⟨start, t⟩ := hd
    rw [List.pairwise_cons] at hsort
    by_cases h : start ≤ pos
    · cases j with
      | zero => simp [hitCount, h]
      | succ j' =>
        have hj' : j' < tl.length := Nat.lt_of_succ_lt_succ hj
        simpa [hitCount, h, Nat.succ_lt_succ_iff] using
          ih hsort.2 j' hj'
    · cases j with
      | zero => simp [hitCount, h]
      | succ j' =>
        have hj' : j' < tl.length := Nat.lt_of_succ_lt_succ hj
        have hmem : tl.get ⟨j', hj'⟩ ∈ tl := List.get_mem tl j' hj'
        have : start ≤ (tl.get ⟨j', hj'⟩).1 := hsort.1 _ hmem
        have hgt : ¬ (tl.get ⟨j', hj'⟩).1 ≤ pos :=
          fun hle => h (le_trans this hle)
        simp only [hitCount, if_neg h, List.length_cons, List.get_cons_succ]
        exact iff_of_false (by omega) hgt

theorem selectIndexEntry_eq_hitCount (lines : List (ℚ × String)) (pos : ℚ) :
    selectIndexEntry lines pos = hitCount pos lines - 1 := by
  rw [selectIndexEntry, selectEntryGo_eq_hitCount]
  by_cases hz : hitCount pos lines = 0 <;> simp [hz]

/-- **C1.** For every lyric list with non-decreasing timestamps and every
position, the scan on initial entry to Synced (lines 142-146) and the scan on
resync (lines 162-167) agree; when the position is before the first timestamp
they return index 0; otherwise they return the unique largest index whose
timestamp is ≤ the position. -/
theorem claim_C1 (lines : List (ℚ × String)) (pos : ℚ)
    (hsort : lines.Pairwise byTs) :
    selectIndexEntry lines pos = selectIndexResync lines pos ∧
    ∀ h0 : 0 < lines.length,
      (pos < (lines.get ⟨0, h0⟩).1 → selectIndexEntry lines pos = 0) ∧
      ((lines.get ⟨0, h0⟩).1 ≤ pos →
        ∃ hi : selectIndexEntry lines pos < lines.length,
          (lines.get ⟨selectIndexEntry lines pos, hi⟩).1 ≤ pos ∧
          ∀ (j : Nat) (hj : j < lines.length),
            (lines.get ⟨j, hj⟩).1 ≤ pos → j ≤ selectIndexEntry lines pos) := by
  constructor
  · rw [selectIndexEntry, selectIndexResync, selectEntryGo_eq_selectResyncGo]
  · intro h0
    constructor
    · intro hlt
      have h0' : ¬ (lines.get ⟨0, h0⟩).1 ≤ pos := not_le.mpr hlt
      have hz : ¬ 0 < hitCount pos lines := fun hpos =>
        h0' ((lt_hitCount_iff pos lines hsort 0 h0).mp hpos)
      rw [selectIndexEntry_eq_hitCount]
      omega
    · intro hle
      have hpos : 0 < hitCount pos lines :=
        (lt_hitCount_iff pos lines hsort 0 h0).mpr hle
      have hlen := hitCount_le_length pos lines
      have hsel : selectIndexEntry lines pos = hitCount pos lines - 1 :=
        selectIndexEntry_eq_hitCount lines pos
      have hklt : selectIndexEntry lines pos < lines.length := by omega
      refine ⟨hklt, ?_, ?_⟩
      · exact (lt_hitCount_iff pos lines hsort _ hklt).mp (by omega)
      · intro j hj hjle
        have : j < hitCount pos lines :=
          (lt_hitCount_iff pos lines hsort j hj).mpr hjle
        omega

/-- Witness for C1 at the spec's end-to-end example list and position 3. -/
theorem claim_C1_witness :
    selectIndexEntry [((0 : ℚ), "a"), (2, "b"), (5, "c")] 3 =
      selectIndexResync [((0 : ℚ), "a"), (2, "b"), (5, "c")] 3 :=
  (claim_C1 [((0 : ℚ), "a"), (2, "b"), (5, "c")] 3 (by decide)).1

/-! ### C2: drift detection -/

/-- **C2.** On a monitor cycle where the reported track's title equals
`current_title`, a last known position is present, the reported position is
known, status is not `Paused`, and an anchor exists: the cycle ends in the
drift state (resync requested, `position := actual`) exactly when
`|actual − (anchor + elapsed)| > 1.0`, ends unchanged (except `paused :=
false`) otherwise, and in either case the new anchor is the actual position.
Moreover, starting from `should_resync = false`, the cycle leaves
`should_resync = true` iff the drift threshold was exceeded. -/
theorem claim_C2 (s : SyncData) (e actual elapsed : ℚ) (a ct : String)
    (status : Option String)
    (hct : s.current_title = some ct)
    (hpos : ∃ lp, s.position = some lp)
    (hstat : status ≠ some "Paused") :
    monitorCycle s (some e) (some (a, ct)) (some actual) status elapsed =
      (if |actual - (e + elapsed)| > 1 then
        ({ s with paused := false, position := some actual,
                  should_resync := true }, some actual)
      else ({ s with paused := false }, some actual)) ∧
    (s.should_resync = false →
      ((monitorCycle s (some e) (some (a, ct)) (some actual) status
          elapsed).1.should_resync = true ↔ |actual - (e + elapsed)| > 1)) := by
  obtain ⟨pos0, sr, run, ct0, pa⟩ := s
  obtain ⟨lp, hlp⟩ := hpos
  have hct' : ct0 = some ct := hct
  have hlp' : pos0 = some lp := hlp
  subst hct' hlp'
  have hmain : monitorCycle ⟨some lp, sr, run, some ct, pa⟩ (some e)
      (some (a, ct)) (some actual) status elapsed =
      (if |actual - (e + elapsed)| > 1 then
        (⟨some actual, true, run, some ct, false⟩, some actual)
      else (⟨some lp, sr, run, some ct, false⟩, some actual)) := by
    by_cases hd : |actual - (e + elapsed)| > 1
    · simp [monitorCycle, monitorCycleRest, hstat, hd]
    · simp [monitorCycle, monitorCycleRest, hstat, hd]
  refine ⟨hmain, fun hsr => ?_⟩
  rw [hmain]
  by_cases hd : |actual - (e + elapsed)| > 1
  · simp [hd]
  · simp [hd, hsr]

/-- Witness for C2: the spec's sudden-jump scenario (anchor 3, elapsed 0.2,
reported position 40). -/
theorem claim_C2_witness :
    monitorCycle ⟨some 3, false, true, some "T", false⟩ (some 3)
        (some ("A", "T")) (some 40) (some "Playing") (1 / 5) =
      (if |(40 : ℚ) - (3 + 1 / 5)| > 1 then
        (⟨some 40, true, true, some "T", false⟩, some 40)
      else (⟨some 3, false, true, some "T", false⟩, some 40)) :=
  (claim_C2 ⟨some 3, false, true, some "T", false⟩ 3 40 (1 / 5) "A" "T"
    (some "Playing") rfl ⟨3, rfl⟩ (by decide)).1

/-! ### C3 / C10: the Loop's resync handling -/

theorem selectIndexResync_eq_hitCount (lines : List (ℚ × String)) (pos : ℚ) :
    selectIndexResync lines pos = hitCount pos lines - 1 := by
  rw [selectIndexResync, ← selectEntryGo_eq_selectResyncGo, ← selectIndexEntry]
  exact selectIndexEntry_eq_hitCount lines pos

/-- **C3.** When the Loop observes `should_resync` at the top of a Synced
iteration: a reported title different from the loaded set's title makes it
`break` (exit towards AwaitingTrack) whatever the lyric set still contains;
a matching title makes it re-anchor to the shared `position`, recompute the
index by the largest-index-with-timestamp-≤-position rule, and clear
`should_resync`, staying in Synced.  (The fresh wall-clock reference
`start_time = time.time()` has no observable content in this embedding beyond
the new anchor `startPos`.) -/
theorem claim_C3 (s : SyncData) (title : String) (lines : List (ℚ × String))
    (hsr : s.should_resync = true) :
    (∀ (a t : String), t ≠ title →
      syncedIterResync s title lines (some (a, t)) = .exitLoop) ∧
    (∀ (a : String) (p : ℚ), s.position = some p →
      syncedIterResync s title lines (some (a, title)) =
        .reanchor (selectIndexResync lines p) p
          { s with should_resync := false } ∧
      (lines.Pairwise byTs →
        ∀ h0 : 0 < lines.length,
          (lines.get ⟨0, h0⟩).1 ≤ p →
          ∃ hi : selectIndexResync lines p < lines.length,
            (lines.get ⟨selectIndexResync lines p, hi⟩).1 ≤ p ∧
            ∀ (j : Nat) (hj : j < lines.length),
              (lines.get ⟨j, hj⟩).1 ≤ p → j ≤ selectIndexResync lines p)) := by
  refine ⟨fun a t ht => ?_, fun a p hp => ⟨?_, fun hsort h0 hle => ?_⟩⟩
  · simp [syncedIterResync, hsr, ht]
  · simp [syncedIterResync, hsr, hp]
  · have hpos : 0 < hitCount p lines :=
      (lt_hitCount_iff p lines hsort 0 h0).mpr hle
    have hlen := hitCount_le_length p lines
    have hsel := selectIndexResync_eq_hitCount lines p
    have hklt : selectIndexResync lines p < lines.length := by omega
    refine ⟨hklt, ?_, ?_⟩
    · exact (lt_hitCount_iff p lines hsort _ hklt).mp (by omega)
    · intro j hj hjle
      have := (lt_hitCount_iff p lines hsort j hj).mpr hjle
      omega

/-- Witness for C3: a pending resync with a changed title exits the loop; with
the same title it re-anchors to position 7 and clears the flag. -/
theorem claim_C3_witness :
    syncedIterResync ⟨some 7, true, true, some "T", false⟩ "T"
        [((0 : ℚ), "a"), (5, "b")] (some ("A", "U")) = .exitLoop ∧
    syncedIterResync ⟨some 7, true, true, some "T", false⟩ "T"
        [((0 : ℚ), "a"), (5, "b")] (some ("A", "T")) =
      .reanchor (selectIndexResync [((0 : ℚ), "a"), (5, "b")] 7) 7
        ⟨some 7, false, true, some "T", false⟩ :=
  ⟨(claim_C3 ⟨some 7, true, true, some "T", false⟩ "T"
      [((0 : ℚ), "a"), (5, "b")] rfl).1 "A" "U" (by decide),
   ((claim_C3 ⟨some 7, true, true, some "T", false⟩ "T"
      [((0 : ℚ), "a"), (5, "b")] rfl).2 "A" 7 rfl).1⟩

/-- **C10.** While handling a pending resync, a failed track query
(`get_track()` returning `None`) is handled by the very same `break` as a
mismatching title: the Loop abandons the loaded lyric set and exits towards
AwaitingTrack, rather than ignoring the failed cycle. -/
theorem claim_C10 (s : SyncData) (title : String) (lines : List (ℚ × String))
    (hsr : s.should_resync = true) (a t : String) (ht : t ≠ title) :
    syncedIterResync s title lines none =
      syncedIterResync s title lines (some (a, t)) ∧
    syncedIterResync s title lines none = .exitLoop := by
  constructor
  · simp [syncedIterResync, hsr, ht]
  · simp [syncedIterResync, hsr]

/-- Witness for C10 at a concrete pending-resync state. -/
theorem claim_C10_witness :
    syncedIterResync ⟨some 7, true, true, some "T", false⟩ "T"
        [((0 : ℚ), "a"), (5, "b")] none = .exitLoop :=
  (claim_C10 ⟨some 7, true, true, some "T", false⟩ "T"
    [((0 : ℚ), "a"), (5, "b")] rfl "A" "U" (by decide)).2

/-! ### C4: the Paused branch -/

theorem monitorCycleRest_resync_mono (s : SyncData) (expected : Option ℚ)
    (posResp : Option ℚ) (status : Option String) (elapsed : ℚ)
    (h : s.should_resync = true) :
    (monitorCycleRest s expected posResp status elapsed).1.should_resync =
      true := by
  obtain ⟨pos0, sr, run, ct0, pa⟩ := s
  rcases pos0 with _ | lp <;> rcases posResp with _ | actual <;>
    simp only [monitorCycleRest] <;> try exact h
  split_ifs <;> simp_all

theorem monitorCycle_resync_mono (s : SyncData) (expected : Option ℚ)
    (track : Option (String × String)) (posResp : Option ℚ)
    (status : Option String) (elapsed : ℚ)
    (h : s.should_resync = true) :
    (monitorCycle s expected track posResp status elapsed).1.should_resync =
      true := by
  rcases track with _ | ti <;> rcases hct : s.current_title with _ | ct <;>
    simp only [monitorCycle, hct] <;>
    first
    | exact monitorCycleRest_resync_mono _ _ _ _ _ h
    | split_ifs <;>
        first
        | rfl
        | exact h
        | exact monitorCycleRest_resync_mono _ _ _ _ _ h

/-- The claim C4 as frozen is falsified by a cycle whose hypotheses it
satisfies (`lastKnownPosition = 1.0` present, reported position `7.0` known,
status `Paused`) but in which the track query reports title `"B"` while
`current_title = "A"`: lines 30-34 fire first, so the cycle ends with
`paused = false`, the position still `1.0`, and the anchor still `0` (not
emptied), contradicting the claimed `paused=true` / position update / anchor
reset. -/
theorem claim_C4_counterexample :
    monitorCycle ⟨some 1, false, true, some "A", false⟩ (some 0)
        (some ("x", "B")) (some 7) (some "Paused") 0 =
      (⟨some 1, true, true, some "A", false⟩, some 0) ∧
    monitorCycle ⟨some 1, false, true, some "A", false⟩ (some 0)
        (some ("x", "B")) (some 7) (some "Paused") 0 ≠
      (⟨some 7, true, true, some "A", true⟩, none) := by
  constructor
  · simp [monitorCycle, monitorCycleRest]
  · simp [monitorCycle, monitorCycleRest]

/-- **C4 (amended).** On every Observer cycle in which `lastKnownPosition` is
present, the reported position is known, status is `Paused`, *and the
track-mismatch branch of lines 30-34 is not taken* (the track query failed,
or `current_title` is absent or empty, or the reported title equals
`current_title`), the Observer sets `lastKnownPosition` to the reported
position, sets `should_resync := true` and `paused := true`, empties the
anchor, and evaluates no drift; and no Observer cycle ever clears a pending
`should_resync`. -/
theorem claim_C4 (s : SyncData) (expected : Option ℚ)
    (track : Option (String × String)) (actual elapsed : ℚ)
    (hlp : ∃ lp, s.position = some lp)
    (htrk : ∀ ti ct, track = some ti → s.current_title = some ct →
      ct = "" ∨ ti.2 = ct) :
    monitorCycle s expected track (some actual) (some "Paused") elapsed =
      ({ s with position := some actual, should_resync := true,
                paused := true }, none) ∧
    (∀ (s' : SyncData) (e' : Option ℚ) (t' : Option (String × String))
        (p' : Option ℚ) (st' : Option String) (el' : ℚ),
      s'.should_resync = true →
      (monitorCycle s' e' t' p' st' el').1.should_resync = true) := by
  constructor
  · obtain ⟨pos0, sr, run, ct0, pa⟩ := s
    obtain ⟨lp, hlp⟩ := hlp
    have hlp' : pos0 = some lp := hlp
    subst hlp'
    rcases track with _ | ti
    · rcases ct0 with _ | ct <;> simp [monitorCycle, monitorCycleRest]
    · rcases ct0 with _ | ct
      · simp [monitorCycle, monitorCycleRest]
      · have hct : (some ti : Option (String × String)) = some ti := rfl
        rcases htrk ti ct rfl rfl with h | h
      --  ct = "" makes `sync_data.current_title` falsy; ti.2 = ct makes the
      --  inequality test fail: either way lines 30-34 do not fire
        · subst h
          simp [monitorCycle, monitorCycleRest]
        · simp [monitorCycle, monitorCycleRest, h]
  · intro s' e' t' p' st' el' h
    exact monitorCycle_resync_mono s' e' t' p' st' el' h

/-- Witness for the amended C4: matching titles, paused oracle. -/
theorem claim_C4_witness :
    monitorCycle ⟨some 1, false, true, some "A", false⟩ (some 0)
        (some ("x", "A")) (some 7) (some "Paused") 0 =
      (⟨some 7, true, true, some "A", true⟩, none) :=
  (claim_C4 ⟨some 1, false, true, some "A", false⟩ (some 0)
    (some ("x", "A")) 7 0 ⟨1, rfl⟩ (by
      intro ti ct h1 h2
      injection h1 with h1
      injection h2 with h2
      subst h1
      subst h2
      exact Or.inr rfl)).1

/-! ### C5: the bounded Seeking wait -/

theorem seekWaitGo_le (oracle : Nat → Option ℚ) :
    ∀ (fuel k : Nat), seekWaitGo oracle fuel k ≤ fuel := by
  intro fuel
  induction fuel with
  | zero => intro k; exact Nat.le_refl 0
  | succ n ih =>
    intro k
    rw [seekWaitGo]
    rcases oracle k with _ | p
    · exact Nat.succ_le_succ (ih (k + 1))
    · by_cases hp : p < 5
      · simp [hp]
      · simpa [hp] using Nat.succ_le_succ (ih (k + 1))

theorem seekWaitGo_none (oracle : Nat → Option ℚ) (n k : Nat)
    (h : oracle k = none) :
    seekWaitGo oracle (n + 1) k = seekWaitGo oracle n (k + 1) + 1 := by
  rw [seekWaitGo, h]

theorem seekWaitGo_some_lt (oracle : Nat → Option ℚ) (n k : Nat) (p : ℚ)
    (h : oracle k = some p) (hp : p < 5) :
    seekWaitGo oracle (n + 1) k = 0 := by
  rw [seekWaitGo, h]
  simp [hp]

theorem seekWaitGo_some_ge (oracle : Nat → Option ℚ) (n k : Nat) (p : ℚ)
    (h : oracle k = some p) (hp : ¬ p < 5) :
    seekWaitGo oracle (n + 1) k = seekWaitGo oracle n (k + 1) + 1 := by
  rw [seekWaitGo, h]
  simp [hp]

theorem seekWaitGo_lt_imp (oracle : Nat → Option ℚ) :
    ∀ (fuel k : Nat), seekWaitGo oracle fuel k < fuel →
      ∃ j, k ≤ j ∧ j < k + fuel ∧ ∃ p, oracle j = some p ∧ p < 5 := by
  intro fuel
  induction fuel with
  | zero => intro k h; exact absurd h (Nat.not_lt_zero _)
  | succ n ih =>
    intro k h
    rcases ho : oracle k with _ | p
    · rw [seekWaitGo_none oracle n k ho] at h
      obtain ⟨j, hj1, hj2, hp⟩ := ih (k + 1) (Nat.lt_of_succ_lt_succ h)
      exact ⟨j, by omega, by omega, hp⟩
    · by_cases hp : p < 5
      · exact ⟨k, Nat.le_refl k, by omega, p, ho, hp⟩
      · rw [seekWaitGo_some_ge oracle n k p ho hp] at h
        obtain ⟨j, hj1, hj2, hq⟩ := ih (k + 1) (Nat.lt_of_succ_lt_succ h)
        exact ⟨j, by omega, by omega, hq⟩

theorem seekWaitGo_full (oracle : Nat → Option ℚ) :
    ∀ (fuel k : Nat),
      (∀ j, k ≤ j → j < k + fuel → ∀ p, oracle j = some p → 5 ≤ p) →
      seekWaitGo oracle fuel k = fuel := by
  intro fuel
  induction fuel with
  | zero => intro k _; rfl
  | succ n ih =>
    intro k hno
    rcases ho : oracle k with _ | p
    · rw [seekWaitGo_none oracle n k ho,
        ih (k + 1) fun j h1 h2 => hno j (by omega) (by omega)]
    · have h5 : 5 ≤ p := hno k (Nat.le_refl k) (by omega) p ho
      rw [seekWaitGo_some_ge oracle n k p ho (not_lt.mpr h5),
        ih (k + 1) fun j h1 h2 => hno j (by omega) (by omega)]

/-- **C5.** The Seeking wait is entered exactly when a song change was
detected with the reported position above 5.0s (line 130); against any
sequence of oracle answers it performs at most 20 sleeps of 0.1s (≤ 2.0s of
blocking wait); it stops short of the 20 iterations only because some queried
position was known and below 5.0s; and when no queried position is below
5.0s in the 20 iterations it runs all 20 and then control proceeds. -/
theorem claim_C5 (oracle : Nat → Option ℚ) :
    (∀ (lastTitle : Option String) (title : String) (pos : ℚ),
      seekEntered lastTitle title pos = true ↔
        (songChanged lastTitle title = true ∧ pos > 5)) ∧
    seekWaitSleeps oracle ≤ 20 ∧
    (seekWaitSleeps oracle : ℚ) * (1 / 10) ≤ 2 ∧
    (seekWaitSleeps oracle < 20 →
      ∃ j, j < 20 ∧ ∃ p, oracle j = some p ∧ p < 5) ∧
    ((∀ j, j < 20 → ∀ p, oracle j = some p → 5 ≤ p) →
      seekWaitSleeps oracle = 20) := by
  refine ⟨fun lastTitle title pos => ?_, seekWaitGo_le oracle 20 0, ?_, ?_, ?_⟩
  · simp [seekEntered, Bool.and_eq_true, decide_eq_true_eq]
  · have h := seekWaitGo_le oracle 20 0
    have : (seekWaitSleeps oracle : ℚ) ≤ 20 := by
      exact_mod_cast h
    linarith
  · intro h
    obtain ⟨j, _, hj2, hp⟩ := seekWaitGo_lt_imp oracle 20 0 h
    exact ⟨j, by omega, hp⟩
  · intro h
    exact seekWaitGo_full oracle 20 0 fun j _ h2 => h j (by omega)

/-- Witness for C5: an oracle that answers unknown until iteration 3 and then
reports position 2 (< 5): three sleeps happen, and an early-exit reason
exists. -/
theorem claim_C5_witness :
    ∃ j, j < 20 ∧ ∃ p,
      (fun k => if k = 3 then some (2 : ℚ) else none) j = some p ∧ p < 5 :=
  (claim_C5 (fun k => if k = 3 then some (2 : ℚ) else none)).2.2.2.1
    (by decide)

/-! ### C6: the `running` flag over whole executions -/

theorem monitorCycleRest_running (s : SyncData) (expected : Option ℚ)
    (posResp : Option ℚ) (status : Option String) (elapsed : ℚ) :
    (monitorCycleRest s expected posResp status elapsed).1.running =
      s.running := by
  obtain ⟨pos0, sr, run, ct0, pa⟩ := s
  rcases pos0 with _ | lp
  · rfl
  · rcases posResp with _ | actual
    · rfl
    · simp only [monitorCycleRest]
      split_ifs <;> rfl

theorem monitorCycle_running (s : SyncData) (expected : Option ℚ)
    (track : Option (String × String)) (posResp : Option ℚ)
    (status : Option String) (elapsed : ℚ) :
    (monitorCycle s expected track posResp status elapsed).1.running =
      s.running := by
  rcases track with _ | ti <;> rcases hct : s.current_title with _ | ct <;>
    simp only [monitorCycle, hct] <;>
    first
    | exact monitorCycleRest_running _ _ _ _ _
    | split_ifs <;>
        first
        | rfl
        | exact monitorCycleRest_running _ _ _ _ _

theorem syncedIterResync_reanchor_state (s : SyncData) (title : String)
    (lines : List (ℚ × String)) (nt : Option (String × String))
    (idx : Nat) (sp : ℚ) (s' : SyncData)
    (h : syncedIterResync s title lines nt = .reanchor idx sp s') :
    s' = { s with should_resync := false } := by
  by_cases hsr : s.should_resync
  · rcases nt with _ | ntv
    · rw [syncedIterResync.eq_def, if_pos hsr] at h
      exact absurd h (by simp)
    · by_cases hti : ntv.2 ≠ title
      · simp [syncedIterResync, hsr, hti] at h
      · rcases hp : s.position with _ | p
        · simp [syncedIterResync, hsr, hti, hp] at h
        · simp only [syncedIterResync, if_pos hsr, if_neg hti, hp,
            ResyncResult.reanchor.injEq] at h
          exact h.2.2.symm
  · simp [syncedIterResync, hsr] at h

theorem applyEvent_running (st : EngineState) (ev : Event) :
    (applyEvent st ev).1.running = (st.1.running && !ev.isShutdown) := by
  rcases ev with ⟨track, posResp, status, elapsed⟩ | title | pos | ⟨title, lines, nt⟩ | _
  · by_cases hr : st.1.running
    · simp [applyEvent, Event.isShutdown, hr, monitorCycle_running]
    · simp [applyEvent, Event.isShutdown, hr, Bool.false_and]
  · simp [applyEvent, Event.isShutdown]
  · simp [applyEvent, Event.isShutdown]
  · simp only [applyEvent, Event.isShutdown, Bool.not_false, Bool.and_true]
    rcases hres : syncedIterResync st.1 title lines nt with _ | _ | ⟨idx, sp, s'⟩ | _
    · rfl
    · rfl
    · have := syncedIterResync_reanchor_state st.1 title lines nt idx sp s' hres
      subst this
      rfl
    · rfl
  · simp [applyEvent, Event.isShutdown]

theorem runEvents_running (es : List Event) :
    ∀ st : EngineState,
      (runEvents st es).1.running =
        (st.1.running && !(es.any Event.isShutdown)) := by
  induction es with
  | nil => intro st; simp [runEvents]
  | cons e es ih =>
    intro st
    have : runEvents st (e :: es) = runEvents (applyEvent st e) es := rfl
    rw [this, ih (applyEvent st e), applyEvent_running]
    simp [List.any_cons, Bool.not_or, Bool.and_assoc]

/-- **C6.** The shared `running` flag starts true (`SyncData.__init__`), no
event of either actor ever turns it from false back to true, and over any
whole execution (any interleaving of Observer cycles and Loop writes) it is
still true exactly when no shutdown event (line 188) has occurred — so it
transitions true→false exactly once, at shutdown. -/
theorem Event.isShutdown_eq (x : Event) :
    x.isShutdown = true ↔ x = Event.shutdown := by
  cases x <;> simp [Event.isShutdown]

theorem claim_C6 :
    SyncData.init.running = true ∧
    (∀ (st : EngineState) (ev : Event), st.1.running = false →
      (applyEvent st ev).1.running = false) ∧
    (∀ es : List Event,
      ((runEvents (SyncData.init, none) es).1.running = true ↔
        Event.shutdown ∉ es)) := by
  refine ⟨rfl, fun st ev h => ?_, fun es => ?_⟩
  · rw [applyEvent_running, h, Bool.false_and]
  · rw [runEvents_running]
    show (true && !(es.any Event.isShutdown)) = true ↔ Event.shutdown ∉ es
    rw [Bool.true_and, Bool.not_eq_true']
    constructor
    · intro h hmem
      have hc : es.any Event.isShutdown = true :=
        List.any_eq_true.mpr ⟨Event.shutdown, hmem, rfl⟩
      rw [h] at hc
      exact Bool.false_ne_true hc
    · intro h
      rw [Bool.eq_false_iff]
      intro hc
      obtain ⟨x, hx, hxs⟩ := List.any_eq_true.mp hc
      rw [Event.isShutdown_eq] at hxs
      subst hxs
      exact h hx

/-- Witness for C6: one step from a stopped state stays stopped. -/
theorem claim_C6_witness :
    (applyEvent (⟨none, false, false, none, false⟩, none)
      (.loopSetTitle "T")).1.running = false :=
  claim_C6.2.1 (⟨none, false, false, none, false⟩, none)
    (.loopSetTitle "T") rfl

/-! ### C7: the Oracle queries are total and silent on failure -/

/-- **C7.** Each oracle query is a total function of the subprocess outcome:
any raised exception (including the 0.5s timeout, which is the constant
passed to every `subprocess.run` call) yields `none`, a nonzero return code
yields `none`, and every outcome yields either `none` or a value — nothing
ever propagates an exception to the engine.  `pyFloat` is the abstract
behavior of Python's `float(...)` (`none` = `ValueError`, also caught). -/
theorem claim_C7 (pyFloat : String → Option ℚ) :
    oracleTimeout = 1 / 2 ∧
    get_position pyFloat .raised = none ∧
    get_track .raised = none ∧
    get_status .raised = none ∧
    (∀ (rc : Int) (out : String), rc ≠ 0 →
      get_position pyFloat (.completed rc out) = none ∧
      get_track (.completed rc out) = none ∧
      get_status (.completed rc out) = none) ∧
    (∀ o : SubprocOutcome,
      (get_position pyFloat o = none ∨ ∃ v, get_position pyFloat o = some v) ∧
      (get_track o = none ∨ ∃ v, get_track o = some v) ∧
      (get_status o = none ∨ ∃ v, get_status o = some v)) := by
  refine ⟨rfl, rfl, rfl, rfl, fun rc out hrc => ?_, fun o => ?_⟩
  · exact ⟨by simp [get_position, hrc], by simp [get_track, hrc],
      by simp [get_status, hrc]⟩
  · refine ⟨?_, ?_, ?_⟩
    · rcases get_position pyFloat o with _ | v
      · exact Or.inl rfl
      · exact Or.inr ⟨v, rfl⟩
    · rcases get_track o with _ | v
      · exact Or.inl rfl
      · exact Or.inr ⟨v, rfl⟩
    · rcases get_status o with _ | v
      · exact Or.inl rfl
      · exact Or.inr ⟨v, rfl⟩

/-- Witness for C7: with a parse function that always fails and a process
that exited with code 1, every query reports unknown. -/
theorem claim_C7_witness :
    get_position (fun _ => none) (.completed 1 "garbage") = none ∧
    get_track (.completed 1 "garbage") = none ∧
    get_status (.completed 1 "garbage") = none :=
  (claim_C7 (fun _ => none)).2.2.2.2.1 1 "garbage" (by decide)

/-! ### C9: only the title is compared, never the artist -/

/-- **C9.** Track-change detection reads only the title component: a monitor
cycle's result is unchanged under any change of the reported artist; when the
reported title equals `current_title` the cycle is exactly the
post-track-check remainder (lines 36-64), so the track-change branch never
fires; and with an unchanged title the Loop's Seeking-wait guard (line 130)
is false for every position, whatever the artists involved. -/
theorem claim_C9 :
    (∀ (s : SyncData) (e : Option ℚ) (a1 a2 t : String)
        (posResp : Option ℚ) (status : Option String) (elapsed : ℚ),
      monitorCycle s e (some (a1, t)) posResp status elapsed =
        monitorCycle s e (some (a2, t)) posResp status elapsed) ∧
    (∀ (pos e : Option ℚ) (sr run pa : Bool) (a t : String)
        (posResp : Option ℚ) (status : Option String) (elapsed : ℚ),
      monitorCycle ⟨pos, sr, run, some t, pa⟩ e (some (a, t)) posResp status
          elapsed =
        monitorCycleRest ⟨pos, sr, run, some t, pa⟩ e posResp status
          elapsed) ∧
    (∀ (t : String) (p : ℚ), seekEntered (some t) t p = false) := by
  refine ⟨fun s e a1 a2 t posResp status elapsed => ?_,
    fun pos e sr run pa a t posResp status elapsed => ?_, fun t p => ?_⟩
  · rcases hct : s.current_title with _ | ct <;> simp [monitorCycle, hct]
  · simp [monitorCycle]
  · simp [seekEntered, songChanged]

/-! ### C8: `parse_lrc_simple` output is a stable non-decreasing sort with
non-negative timestamps -/

theorem matchLrcLine_nonneg (cs : List Char) (ts : ℚ) (rest : List Char)
    (h : matchLrcLine cs = some (ts, rest)) : 0 ≤ ts := by
  rw [matchLrcLine.eq_def] at h
  repeat' split at h
  all_goals try exact Option.noConfusion h
  injection h with h2
  rw [Prod.mk.injEq] at h2
  rw [← h2.1]
  positivity

theorem parseLine_nonneg (line : String) (x : ℚ × String)
    (h : parseLine line = some x) : 0 ≤ x.1 := by
  rw [parseLine.eq_def] at h
  split at h
  · exact Option.noConfusion h
  · rcases hm : matchLrcLine line.trim.data with _ | ⟨ts, rest⟩
    · rw [hm] at h
      exact Option.noConfusion h
    · rw [hm] at h
      have h' : (if (String.mk rest).trim = "" then none
          else some (ts, (String.mk rest).trim)) = some x := h
      split at h'
      · exact Option.noConfusion h'
      · injection h' with h2
        rw [Prod.mk.injEq] at h2
        exact h2.1 ▸ matchLrcLine_nonneg _ _ _ hm

/-- **C8.** For every input file (as its list of raw lines), the list
returned by `parse_lrc_simple` is non-decreasing by timestamp, its
lines of any given timestamp appear exactly in their input order (the sort is
stable), and every timestamp is ≥ 0. -/
theorem claim_C8 (fileLines : List String) :
    (parse_lrc_simple fileLines).Pairwise byTs ∧
    (∀ t : ℚ, (parse_lrc_simple fileLines).filter (fun x => decide (x.1 = t)) =
      (fileLines.filterMap parseLine).filter (fun x => decide (x.1 = t))) ∧
    (∀ x ∈ parse_lrc_simple fileLines, 0 ≤ x.1) := by
  refine ⟨List.sorted_insertionSort byTs _, fun t => ?_, fun x hx => ?_⟩
  · have hmem : ∀ x ∈ (fileLines.filterMap parseLine).filter
        (fun x => decide (x.1 = t)), decide (x.1 = t) = true :=
      fun x hx => (List.mem_filter.mp hx).2
    have hpair : ((fileLines.filterMap parseLine).filter
        (fun x => decide (x.1 = t))).Pairwise byTs := by
      refine List.pairwise_of_forall_mem_list fun a ha b hb => ?_
      have ha' : a.1 = t := of_decide_eq_true (hmem a ha)
      have hb' : b.1 = t := of_decide_eq_true (hmem b hb)
      show a.1 ≤ b.1
      rw [ha', hb']
    have h1 : List.Sublist
        ((fileLines.filterMap parseLine).filter (fun x => decide (x.1 = t)))
        (List.insertionSort byTs (fileLines.filterMap parseLine)) :=
      List.sublist_insertionSort hpair
        (List.filter_sublist (fileLines.filterMap parseLine))
    have hidem : ((fileLines.filterMap parseLine).filter
        (fun x => decide (x.1 = t))).filter (fun x => decide (x.1 = t)) =
        (fileLines.filterMap parseLine).filter (fun x => decide (x.1 = t)) :=
      List.filter_eq_self.mpr hmem
    have h2 : List.Sublist
        ((fileLines.filterMap parseLine).filter (fun x => decide (x.1 = t)))
        ((List.insertionSort byTs (fileLines.filterMap parseLine)).filter
          (fun x => decide (x.1 = t))) :=
      hidem ▸ h1.filter (fun x => decide (x.1 = t))
    have hperm := (List.perm_insertionSort byTs
      (fileLines.filterMap parseLine)).filter (fun x => decide (x.1 = t))
    exact (h2.eq_of_length hperm.length_eq.symm).symm
  · rw [parse_lrc_simple, List.mem_insertionSort] at hx
    obtain ⟨line, _, hline⟩ := List.mem_filterMap.mp hx
    exact parseLine_nonneg line x hline

/-- Witness for C8: a two-line file parsed out of order; the line
`[00:01.50]a` (timestamp 1.5) is in the output and its timestamp is
non-negative. -/
theorem claim_C8_witness :
    (parse_lrc_simple ["[00:02.00]b", "[00:01.50]a"]).Pairwise byTs ∧
    (0 : ℚ) ≤ ((3 : ℚ) / 2, "a").1 :=
  ⟨(claim_C8 ["[00:02.00]b", "[00:01.50]a"]).1,
   (claim_C8 ["[00:02.00]b", "[00:01.50]a"]).2.2 ((3 : ℚ) / 2, "a")
     (by with_unfolding_all decide)⟩

end TacosLyrics
